import Mathlib

/-!
Verification of the pacthash contract encoder.

This file is a shallow embedding of the two source files of the repository:
`src/contract.rs` (the `Type`, `Nonce` and `Contract` data model with its
serialization and three construction paths) and `src/main.rs` (the
command-level resolver that validates the mode flags, the redeem script,
the private key, and selects the contract construction path).

Bytes (`u8`) are embedded as `Fin 256`.  External collaborators (the base58
checksum decoders of the `bitcoin` crate) are passed in as function
parameters; the hex codec of the `rustc-serialize` crate, whose semantics
the repository relies on, is embedded directly (nibble pairing with
whitespace skipping, as its `from_hex` implements).
-/

/-- A `u8` byte, embedded as `Fin 256`. -/
abbrev Byte := Fin 256

/-- Network tag, embedding `bitcoin::network::constants::Network`
(the two variants used by the program). -/
inductive Network
  | Bitcoin
  | Testnet
deriving DecidableEq

/-- Address type, embedding `bitcoin::util::address::Type`. -/
inductive AddressType
  | PubkeyHash
  | ScriptHash
deriving DecidableEq

/-- Opaque base58 decoding error of the external `bitcoin::util::base58`
collaborator; the program never inspects it. -/
inductive Base58Error
  | decodeFailure
deriving DecidableEq

/-- Hex decoding error of `rustc_serialize::hex::FromHexError`. -/
inductive FromHexError
  | InvalidHexCharacter (c : Char) (idx : Nat)
  | InvalidHexLength
deriving DecidableEq

/-- A 20-byte hash, embedding `bitcoin::util::hash::Hash160`
(the `hash` field of an `Address`). -/
abbrev Hash160 := {l : List Byte // l.length = 20}

/-- A decoded address, embedding `bitcoin::util::address::Address`
(the fields the program reads: network, type, 20-byte hash). -/
structure Address where
  network : Network
  ty : AddressType
  hash : Hash160
deriving DecidableEq

/-- A decoded private key, embedding `bitcoin::util::address::Privkey`
(the fields the program reads or constructs). -/
structure Privkey where
  compressed : Bool
  network : Network
  key : List Byte
deriving DecidableEq

instance {ε α : Type} [DecidableEq ε] [DecidableEq α] : DecidableEq (Except ε α) := fun
  | .ok a, .ok b =>
    match decEq a b with
    | isTrue h => isTrue (h ▸ rfl)
    | isFalse h => isFalse fun hc => h (Except.ok.inj hc)
  | .ok _, .error _ => isFalse fun hc => Except.noConfusion hc
  | .error _, .ok _ => isFalse fun hc => Except.noConfusion hc
  | .error a, .error b =>
    match decEq a b with
    | isTrue h => isTrue (h ▸ rfl)
    | isFalse h => isFalse fun hc => h (Except.error.inj hc)

/-! ### The hex codec (`rustc_serialize::hex`)

`from_hex` iterates over the bytes of the input, skipping ASCII whitespace,
collecting hex nibbles; every second nibble completes a byte.  A character
that is neither a hex digit nor whitespace fails immediately with
`InvalidHexCharacter` (carrying the character and its index); an odd number
of nibbles at the end of the input fails with `InvalidHexLength`.

We iterate over the characters of the string; for the ASCII inputs the hex
codec is meant for this coincides with Rust's byte iteration, and a
non-ASCII character is an invalid hex character on both sides.  The
`buf <<= 4` accumulator of the Rust loop (a wrapping `u8`) keeps exactly
the last two nibbles, which is made explicit here by pairing nibbles. -/

/-- Value of a hex digit, from its character code: `A-F`, `a-f`, `0-9`. -/
def hexDigitVal (n : Nat) : Option (Fin 16) :=
  if h : 65 ≤ n ∧ n ≤ 70 then some ⟨n - 65 + 10, by omega⟩        -- b'A' ..= b'F'
  else if h : 97 ≤ n ∧ n ≤ 102 then some ⟨n - 97 + 10, by omega⟩  -- b'a' ..= b'f'
  else if h : 48 ≤ n ∧ n ≤ 57 then some ⟨n - 48, by omega⟩        -- b'0' ..= b'9'
  else none

/-- Value of a hex digit character. -/
def hexDigit (c : Char) : Option (Fin 16) := hexDigitVal c.toNat

/-- Whitespace skipped by the hex decoder: `b' ' | b'\r' | b'\n' | b'\t'`. -/
def isHexWhitespace (c : Char) : Bool :=
  c = ' ' || c = '\r' || c = '\n' || c = '\t'

/-- The decoding loop of `rustc_serialize`'s `from_hex`.  `pending` holds a
high nibble waiting for its low nibble (the `modulus`/`buf` state of the
Rust loop); `idx` is the position reported by `InvalidHexCharacter`. -/
def fromHexChars : List Char → Nat → Option (Fin 16) → Except FromHexError (List Byte)
  | [], _, none => .ok []
  | [], _, some _ => .error .InvalidHexLength
  | c :: rest, idx, pending =>
    if isHexWhitespace c then fromHexChars rest (idx + 1) pending
    else
      match hexDigit c with
      | none => .error (.InvalidHexCharacter c idx)
      | some d =>
        match pending with
        | none => fromHexChars rest (idx + 1) (some d)
        | some hi =>
          match fromHexChars rest (idx + 1) none with
          | .ok tail =>
            .ok ((⟨hi.val * 16 + d.val, by
              have h1 := hi.isLt; have h2 := d.isLt; omega⟩ : Byte) :: tail)
          | .error e => .error e

/-- `str::from_hex` of `rustc_serialize`, on a Lean `String`. -/
def fromHexStr (s : String) : Except FromHexError (List Byte) :=
  fromHexChars s.data 0 none

/-- Lowercase hex digit character for a nibble value (what `{:02x}` emits). -/
def toHexDigit (d : Nat) : Char :=
  if d < 10 then Char.ofNat (48 + d) else Char.ofNat (87 + d)

/-- Lowercase hex encoding of a byte string, two digits per byte
(`{:02x}` applied to each byte in order). -/
def toHexChars : List Byte → List Char
  | [] => []
  | b :: bs => toHexDigit (b.val / 16) :: toHexDigit (b.val % 16) :: toHexChars bs

/-- Lowercase hex encoding as a `String`. -/
def toHexString (bs : List Byte) : String := String.mk (toHexChars bs)

/-! ### `src/contract.rs` -/

/-- Total length of a contract in bytes (`CONTRACT_LEN`). -/
def CONTRACT_LEN : Nat := 40
/-- Length of the data portion of the contract in bytes (`DATA_LEN`). -/
def DATA_LEN : Nat := 20
/-- Nonce length in bytes (`NONCE_LEN`). -/
def NONCE_LEN : Nat := 16

/-- Type of contract encoding, embedding the `Type` enum of
`src/contract.rs` (named `ContractType` here because `Type` is reserved). -/
inductive ContractType
  | Text
  | PubkeyHash
  | ScriptHash
deriving DecidableEq

/-- Serialize the type: the fixed 4-byte tag of each variant
(`b"TEXT"`, `b"P2PH"`, `b"P2SH"` as ASCII byte values). -/
def ContractType.serialize : ContractType → List Byte
  | .Text => [84, 69, 88, 84]        -- b"TEXT"
  | .PubkeyHash => [80, 50, 80, 72]  -- b"P2PH"
  | .ScriptHash => [80, 50, 83, 72]  -- b"P2SH"

/-- Nonce: a 16-byte array (`[u8; NONCE_LEN]`). -/
abbrev Nonce := {l : List Byte // l.length = NONCE_LEN}

/-- Contract-related error, embedding the `Error` enum of
`src/contract.rs`. -/
inductive Error
  | Base58 (e : Base58Error)
  | Hex (e : FromHexError)
  | WrongNetwork (got expected : Network)
  | BadLength (len : Nat)
  | BadType (bytes : List Byte)
deriving DecidableEq

/-- Interpret a byte sequence as a type: the slice patterns `b"TEXT"`,
`b"P2PH"`, `b"P2SH"` of `Type::deserialize`; anything else (any length)
is `Error::BadType` carrying the input bytes. -/
def ContractType.deserialize (data : List Byte) : Except Error ContractType :=
  if data = ContractType.Text.serialize then .ok .Text
  else if data = ContractType.PubkeyHash.serialize then .ok .PubkeyHash
  else if data = ContractType.ScriptHash.serialize then .ok .ScriptHash
  else .error (.BadType data)

/-- Serialize the nonce: an identity copy of its bytes
(`self[..].to_owned()`). -/
def Nonce.serialize (n : Nonce) : List Byte := n.val

/-- Decode a hex string as a Nonce (`Nonce::from_hex`): hex-decode, fail
with `BadLength` if the byte count is not `NONCE_LEN`, else copy the
bytes. -/
def Nonce.from_hex (data : String) : Except Error Nonce :=
  match fromHexStr data with
  | .error e => .error (.Hex e)
  | .ok bytes =>
    if h : bytes.length = NONCE_LEN then .ok ⟨bytes, h⟩
    else .error (.BadLength bytes.length)

/-- Contract: type, nonce, data. -/
structure Contract where
  ty : ContractType
  nonce : Nonce
  data : List Byte
deriving DecidableEq

/-- Parse a Nonce out of a contract (`Nonce::from_contract`). -/
def Nonce.from_contract (contract : Contract) : Nonce := contract.nonce

/-- Serialize the contract: type tag, then nonce bytes, then data
(`Contract::serialize`). -/
def Contract.serialize (c : Contract) : List Byte :=
  c.ty.serialize ++ c.nonce.val ++ c.data

/-- Decode a hex string as a contract (`Contract::from_hex`): hex-decode;
fail with `BadLength` unless exactly `CONTRACT_LEN` bytes; deserialize
`bytes[0..4]` as the type; `bytes[4..20]` is the nonce, `bytes[20..]`
the data. -/
def Contract.from_hex (data : String) : Except Error Contract :=
  match fromHexStr data with
  | .error e => .error (.Hex e)
  | .ok bytes =>
    if h : bytes.length = CONTRACT_LEN then
      match ContractType.deserialize (bytes.take 4) with
      | .error e => .error e
      | .ok ty =>
        .ok { ty := ty
              nonce := ⟨(bytes.drop 4).take 16, by
                rw [List.length_take, List.length_drop, h]; decide⟩
              data := bytes.drop 20 }
    else .error (.BadLength bytes.length)

/-- The match in `Contract::from_p2sh_base58_str` mapping the address type
to a contract type. -/
def addressTypeToContractType : AddressType → ContractType
  | .PubkeyHash => .PubkeyHash
  | .ScriptHash => .ScriptHash

/-- Decode a P2SH address as a contract (`Contract::from_p2sh_base58_str`).
The external base58check decoder of the `bitcoin` crate is a parameter
`from_base58check`.  Fails with `WrongNetwork` when the decoded address's
network differs from the expected one; otherwise the contract's type is
mapped from the address type, the nonce is the caller's, and the data is
the address's 20-byte hash. -/
def Contract.from_p2sh_base58_str
    (from_base58check : String → Except Base58Error Address)
    (s : String) (nonce : Nonce) (expected_network : Network) :
    Except Error Contract :=
  match from_base58check s with
  | .error e => .error (.Base58 e)
  | .ok addr =>
    if addr.network ≠ expected_network then
      .error (.WrongNetwork addr.network expected_network)
    else
      .ok { ty := addressTypeToContractType addr.ty
            nonce := nonce
            data := addr.hash.val }

/-- The UTF-8 bytes of a string (`str::as_bytes`). -/
def strBytes (s : String) : List Byte :=
  s.data.flatMap (fun c => (String.utf8EncodeChar c).map (fun b => (⟨b.toNat, b.toNat_lt⟩ : Byte)))

/-- Decode an ASCII string as a contract (`Contract::from_ascii_str`):
fail with `BadLength` unless the string's byte length is exactly
`DATA_LEN`; the type is `Text`, the data the raw bytes, the nonce the
caller's. -/
def Contract.from_ascii_str (s : String) (nonce : Nonce) : Except Error Contract :=
  let bytes := strBytes s
  if bytes.length ≠ DATA_LEN then .error (.BadLength bytes.length)
  else .ok { ty := .Text, nonce := nonce, data := bytes }

/-! ### `src/main.rs` — the mode resolver

Each `match` block of `main` that validates inputs and `return`s with a
printed diagnostic is embedded as a pure function returning `Except`;
`MainError` enumerates the distinct diagnostics.  The OS random source
(`rng.gen()`) is a parameter `rngNonce`, and the external base58check
decoders are parameters, as in the contract constructors. -/

/-- Modes that the program can run in (`Mode` of `src/main.rs`). -/
inductive Mode
  | GenAddress
  | GenPrivkey
deriving DecidableEq

/-- A redemption script (`bitcoin::blockdata::script::Script`, built from
raw bytes by `Script::from`). -/
abbrev Script := List Byte

/-- The distinct print-and-return diagnostics of the validation part of
`main`. -/
inductive MainError
  | modeMissing                        -- "One of -g or -c must be specified."
  | modeBoth                           -- "At most one of -g or -c may be specified."
  | redeemHexParse (e : FromHexError)  -- "option to -r could not be parsed as hex"
  | redeemMissing                      -- "-r must be specified in -g mode."
  | redeemNotAllowed                   -- "-r may only be used in -g mode."
  | privkeyParse (e : Base58Error)     -- "option to -p could not be parsed as a private key"
  | privkeyWrongNetwork                -- "Private key network did not match tool mode"
  | privkeyMissing                     -- "-p must be specified in -c mode."
  | privkeyNotAllowed                  -- "-p may only be used in -c mode."
  | nonceRequired                      -- "-n is required when using -c and -d" / "-c and -a"
  | nonceParse (e : Error)             -- "option to -n could not be parsed as a nonce"
  | contractHexParse (e : Error)       -- "option to -f could not be parsed as a contract"
  | contractP2shParse (e : Error)      -- "option to -d could not be parsed as a P2SH contract"
  | contractAsciiParse (e : Error)     -- "option to -a could not be parsed as a contract"
  | usage                              -- "Must specify exactly one of: -f; -a -n; or -d -n"
deriving DecidableEq

/-- Mode flag resolution: the `match` on
`(matches.opt_present("c"), matches.opt_present("g"))`. -/
def resolveMode (c g : Bool) : Except MainError Mode :=
  match c, g with
  | false, false => .error .modeMissing
  | true, true => .error .modeBoth
  | true, false => .ok .GenPrivkey
  | false, true => .ok .GenAddress

/-- Redeem script validation: the `match` on `(mode, matches.opt_str("r"))`.
Required in `GenAddress` mode (hex-decoded into a `Script`), forbidden in
`GenPrivkey` mode. -/
def resolveRedeemScript (mode : Mode) (r : Option String) :
    Except MainError (Option Script) :=
  match mode, r with
  | .GenAddress, some x =>
    match fromHexStr x with
    | .ok data => .ok (some data)
    | .error e => .error (.redeemHexParse e)
  | .GenAddress, none => .error .redeemMissing
  | .GenPrivkey, none => .ok none
  | .GenPrivkey, some _ => .error .redeemNotAllowed

/-- Private key validation: the `match` on `(mode, matches.opt_str("p"))`.
Required in `GenPrivkey` mode (base58check-decoded, network checked against
the tool's network), forbidden in `GenAddress` mode. -/
def resolvePrivkey (from_base58check : String → Except Base58Error Privkey)
    (mode : Mode) (network : Network) (p : Option String) :
    Except MainError (Option Privkey) :=
  match mode, p with
  | .GenPrivkey, some x =>
    match from_base58check x with
    | .ok key =>
      if key.network ≠ network then .error .privkeyWrongNetwork
      else .ok (some key)
    | .error e => .error (.privkeyParse e)
  | .GenPrivkey, none => .error .privkeyMissing
  | .GenAddress, none => .ok none
  | .GenAddress, some _ => .error .privkeyNotAllowed

/-- Contract source resolution: the `match` on
`(mode, matches.opt_str("f"), matches.opt_str("n"), matches.opt_str("d"),
matches.opt_str("a"))`.  The first arm takes a full hex contract and
requires every other optional input (including the nonce) to be absent; the
next two take a P2SH address or an ASCII string, where a nonce is required
in `GenPrivkey` mode and generated (`rngNonce`) when absent in `GenAddress`
mode; every other combination is the usage error. -/
def resolveContract (from_base58check : String → Except Base58Error Address)
    (rngNonce : Nonce) (mode : Mode) (network : Network)
    (f n d a : Option String) : Except MainError Contract :=
  match mode, f, n, d, a with
  | _, some hex, none, none, none =>
    match Contract.from_hex hex with
    | .ok data => .ok data
    | .error e => .error (.contractHexParse e)
  | mode, none, nonceOpt, some hex, none =>
    if mode = .GenPrivkey ∧ nonceOpt = none then .error .nonceRequired
    else
      match (match nonceOpt with
             | some nhex =>
               match Nonce.from_hex nhex with
               | .ok data => .ok data
               | .error e => .error (MainError.nonceParse e)
             | none => .ok rngNonce : Except MainError Nonce) with
      | .error e => .error e
      | .ok nonce =>
        match Contract.from_p2sh_base58_str from_base58check hex nonce network with
        | .ok contract => .ok contract
        | .error e => .error (.contractP2shParse e)
  | mode, none, nonceOpt, none, some ascii =>
    if mode = .GenPrivkey ∧ nonceOpt = none then .error .nonceRequired
    else
      match (match nonceOpt with
             | some nhex =>
               match Nonce.from_hex nhex with
               | .ok data => .ok data
               | .error e => .error (MainError.nonceParse e)
             | none => .ok rngNonce : Except MainError Nonce) with
      | .error e => .error e
      | .ok nonce =>
        match Contract.from_ascii_str ascii nonce with
        | .ok contract => .ok contract
        | .error e => .error (.contractAsciiParse e)
  | _, _, _, _, _ => .error .usage

/-- A contract producible by one of the three construction paths of
`src/contract.rs`. -/
inductive Produces : Contract → Prop
  | hex (s : String) (c : Contract) :
      Contract.from_hex s = .ok c → Produces c
  | p2sh (from_base58check : String → Except Base58Error Address)
      (s : String) (nonce : Nonce) (net : Network) (c : Contract) :
      Contract.from_p2sh_base58_str from_base58check s nonce net = .ok c →
      Produces c
  | ascii (s : String) (nonce : Nonce) (c : Contract) :
      Contract.from_ascii_str s nonce = .ok c → Produces c

/-! ### Concrete values used to evaluate the definitions -/

/-- A concrete nonce: bytes `00 11 22 .. ff`. -/
def wNonce : Nonce :=
  ⟨[0, 17, 34, 51, 68, 85, 102, 119, 136, 153, 170, 187, 204, 221, 238, 255],
   by decide⟩

/-- A concrete all-zero nonce. -/
def wNonceZero : Nonce := ⟨List.replicate 16 0, by decide⟩

/-- A concrete 20-byte hash: bytes `01 02 .. 14`. -/
def wHash : Hash160 :=
  ⟨[1, 2, 3, 4, 5, 6, 7, 8, 9, 10, 11, 12, 13, 14, 15, 16, 17, 18, 19, 20],
   by decide⟩

/-- A base58check address decoder that always succeeds with a fixed
mainnet script-hash address. -/
def wDecodeAddr : String → Except Base58Error Address :=
  fun _ => .ok ⟨.Bitcoin, .ScriptHash, wHash⟩

/-- A base58check address decoder that always fails. -/
def wDecodeAddrFail : String → Except Base58Error Address :=
  fun _ => .error .decodeFailure

/-- A base58check private-key decoder that always succeeds with a fixed
testnet key. -/
def wDecodePrivkey : String → Except Base58Error Privkey :=
  fun _ => .ok ⟨true, .Testnet, []⟩

/-- Hex of the nonce `wNonce`. -/
def wNonceHex : String := "00112233445566778899aabbccddeeff"

/-- Hex of a full 40-byte contract: tag `TEXT`, nonce `wNonce`, data
`00 01 .. 13`. -/
def wContractHex : String :=
  "5445585400112233445566778899aabbccddeeff000102030405060708090a0b0c0d0e0f10111213"

/-- The contract encoded by `wContractHex`. -/
def wHexContract : Contract :=
  { ty := .Text
    nonce := wNonce
    data := [0, 1, 2, 3, 4, 5, 6, 7, 8, 9, 10, 11, 12, 13, 14, 15, 16, 17, 18, 19] }

/-! ### Helper lemmas -/

/-- Decoding a lowercase hex digit recovers the nibble. -/
theorem hexDigit_toHexDigit : ∀ d : Fin 16,
    hexDigit (toHexDigit d.val) = some d := by decide

/-- A hex digit character is not hex whitespace. -/
theorem isHexWhitespace_toHexDigit : ∀ d : Fin 16,
    isHexWhitespace (toHexDigit d.val) = false := by decide

/-- The hex decoder inverts the lowercase hex encoder, at any reported
index. -/
theorem fromHexChars_toHexChars (bs : List Byte) (idx : Nat) :
    fromHexChars (toHexChars bs) idx none = .ok bs := by
  induction bs generalizing idx with
  | nil => rfl
  | cons b bs ih =>
    have hb := b.isLt
    have hhi : b.val / 16 < 16 := by omega
    have hlo : b.val % 16 < 16 := by omega
    show fromHexChars
      (toHexDigit (b.val / 16) :: toHexDigit (b.val % 16) :: toHexChars bs)
      idx none = .ok (b :: bs)
    simp only [fromHexChars,
      isHexWhitespace_toHexDigit ⟨b.val / 16, hhi⟩,
      isHexWhitespace_toHexDigit ⟨b.val % 16, hlo⟩,
      hexDigit_toHexDigit ⟨b.val / 16, hhi⟩,
      hexDigit_toHexDigit ⟨b.val % 16, hlo⟩,
      Bool.false_eq_true, if_false, ih]
    simp [Fin.ext_iff]
    omega

/-- Each type tag is 4 bytes. -/
theorem ContractType.tag_length (t : ContractType) :
    t.serialize.length = 4 := by
  cases t <;> rfl

/-- Deserializing a serialized type tag recovers the variant. -/
theorem ContractType.deserialize_serialize : ∀ t : ContractType,
    ContractType.deserialize t.serialize = .ok t := by
  intro t; cases t <;> rfl

/-- A serialized contract is 40 bytes when its data is 20 bytes. -/
theorem Contract.serialize_length (c : Contract) (hdata : c.data.length = 20) :
    c.serialize.length = 40 := by
  simp [Contract.serialize, ContractType.tag_length, c.nonce.2, hdata,
    NONCE_LEN]

/-- Decoding the lowercase hex encoding of a serialized contract whose data
is 20 bytes recovers the contract. -/
theorem Contract.from_hex_toHexString (c : Contract) (hdata : c.data.length = 20) :
    Contract.from_hex (toHexString c.serialize) = .ok c := by
  obtain ⟨ty, ⟨nv, hnv⟩, data⟩ := c
  have hnv' : nv.length = 16 := hnv
  have hdata' : data.length = 20 := hdata
  have hser : (Contract.serialize ⟨ty, ⟨nv, hnv⟩, data⟩).length = 40 :=
    Contract.serialize_length _ hdata
  have hdec : fromHexStr (toHexString (Contract.serialize ⟨ty, ⟨nv, hnv⟩, data⟩)) =
      .ok (Contract.serialize ⟨ty, ⟨nv, hnv⟩, data⟩) :=
    fromHexChars_toHexChars _ 0
  have hserdef : Contract.serialize ⟨ty, ⟨nv, hnv⟩, data⟩ =
      ty.serialize ++ (nv ++ data) := by
    simp [Contract.serialize]
  simp only [Contract.from_hex, hdec]
  rw [dif_pos (show (Contract.serialize ⟨ty, ⟨nv, hnv⟩, data⟩).length = CONTRACT_LEN from hser)]
  have htake : (Contract.serialize ⟨ty, ⟨nv, hnv⟩, data⟩).take 4 = ty.serialize := by
    rw [hserdef]; exact List.take_left' (ContractType.tag_length ty)
  have hdrop4 : (Contract.serialize ⟨ty, ⟨nv, hnv⟩, data⟩).drop 4 = nv ++ data := by
    rw [hserdef]; exact List.drop_left' (ContractType.tag_length ty)
  have hnonce : ((Contract.serialize ⟨ty, ⟨nv, hnv⟩, data⟩).drop 4).take 16 = nv := by
    rw [hdrop4]; exact List.take_left' hnv'
  have hdrop20 : (Contract.serialize ⟨ty, ⟨nv, hnv⟩, data⟩).drop 20 = data := by
    have : Contract.serialize ⟨ty, ⟨nv, hnv⟩, data⟩ = (ty.serialize ++ nv) ++ data := by
      simp [Contract.serialize]
    rw [this]
    exact List.drop_left' (by simp [ContractType.tag_length, hnv'])
  rw [htake, ContractType.deserialize_serialize]
  simp only [hnonce, hdrop20]

/-- Every contract produced by one of the three construction paths has
exactly 20 data bytes. -/
theorem Produces.data_length {c : Contract} (h : Produces c) : c.data.length = 20 := by
  cases h with
  | hex s c hc =>
    unfold Contract.from_hex at hc
    split at hc
    · exact Except.noConfusion hc
    · rename_i bytes heq
      split at hc
      · rename_i hlen
        split at hc
        · exact Except.noConfusion hc
        · cases hc
          simp only [List.length_drop, hlen, CONTRACT_LEN]
      · exact Except.noConfusion hc
  | p2sh dec s nonce net c hc =>
    unfold Contract.from_p2sh_base58_str at hc
    split at hc
    · exact Except.noConfusion hc
    · rename_i addr heq
      split at hc
      · exact Except.noConfusion hc
      · cases hc
        exact addr.hash.2
  | ascii s nonce c hc =>
    simp only [Contract.from_ascii_str] at hc
    split at hc
    · exact Except.noConfusion hc
    · rename_i hne
      cases hc
      show (strBytes s).length = 20
      simp only [DATA_LEN] at hne
      omega

/-! ### Claims -/

/-- C1: for every 20-byte hash `H`, 16-byte nonce `N`, and address type `T`,
the contract built by `from_p2sh_base58_str` from an address decoding to
(expected network, `T`, `H`) with caller-supplied nonce `N`, and the
contract built by `from_hex` from the hex encoding of the 40-byte string
`tag(T) ++ N ++ H`, have byte-identical `serialize` output. -/
theorem C1_path_equivalence
    (from_base58check : String → Except Base58Error Address)
    (s : String) (N : Nonce) (net : Network) (T : AddressType) (H : Hash160)
    (hdec : from_base58check s = .ok ⟨net, T, H⟩) :
    ∃ c₁ c₂,
      Contract.from_p2sh_base58_str from_base58check s N net = .ok c₁ ∧
      Contract.from_hex (toHexString
        ((addressTypeToContractType T).serialize ++ N.val ++ H.val)) = .ok c₂ ∧
      c₁.serialize = c₂.serialize := by
  refine ⟨⟨addressTypeToContractType T, N, H.val⟩,
    ⟨addressTypeToContractType T, N, H.val⟩, ?_, ?_, rfl⟩
  · simp [Contract.from_p2sh_base58_str, hdec]
  · exact Contract.from_hex_toHexString ⟨addressTypeToContractType T, N, H.val⟩ H.2

/-- Witness for C1 at a concrete decoder, nonce and hash. -/
theorem C1_path_equivalence_witness :
    ∃ c₁ c₂,
      Contract.from_p2sh_base58_str wDecodeAddr "3ADDRESS" wNonce .Bitcoin = .ok c₁ ∧
      Contract.from_hex (toHexString
        ((addressTypeToContractType .ScriptHash).serialize ++ wNonce.val ++ wHash.val)) = .ok c₂ ∧
      c₁.serialize = c₂.serialize :=
  C1_path_equivalence wDecodeAddr "3ADDRESS" wNonce .Bitcoin .ScriptHash wHash rfl

/-- C3: for every contract producible by one of the three constructors,
`from_hex` applied to the lowercase hex encoding of its serialization
succeeds and returns the same contract. -/
theorem C3_roundtrip (c : Contract) (h : Produces c) :
    Contract.from_hex (toHexString c.serialize) = .ok c :=
  Contract.from_hex_toHexString c h.data_length

/-- Witness for C3 at a contract produced by the ASCII path. -/
theorem C3_roundtrip_witness :
    Contract.from_hex (toHexString (Contract.serialize
      ⟨.Text, wNonce, strBytes "abcdefghijklmnopqrst"⟩)) =
    .ok ⟨.Text, wNonce, strBytes "abcdefghijklmnopqrst"⟩ :=
  C3_roundtrip _ (Produces.ascii "abcdefghijklmnopqrst" wNonce _ rfl)

/-- C4: every contract producible by a constructor serializes to exactly
40 bytes, laid out as the 4 tag bytes, the 16 nonce bytes, then the
20 data bytes; equivalently its data is exactly 20 bytes. -/
theorem C4_canonical_length (c : Contract) (h : Produces c) :
    c.serialize = c.ty.serialize ++ c.nonce.val ++ c.data ∧
    c.serialize.length = 40 ∧ c.data.length = 20 :=
  ⟨rfl, Contract.serialize_length c h.data_length, h.data_length⟩

/-- Witness for C4 at a contract produced by the hex path. -/
theorem C4_canonical_length_witness :
    Contract.serialize wHexContract =
      ContractType.serialize wHexContract.ty ++ wHexContract.nonce.val ++ wHexContract.data ∧
    (Contract.serialize wHexContract).length = 40 ∧ wHexContract.data.length = 20 :=
  C4_canonical_length wHexContract (Produces.hex wContractHex wHexContract (by decide))

/-- C6: deserializing a serialized type tag recovers the variant, and any
4-byte input that is none of the three tags fails with `BadType` carrying
exactly those bytes. -/
theorem C6_tag_bijection :
    (∀ t : ContractType, ContractType.deserialize t.serialize = .ok t) ∧
    (∀ bs : List Byte, bs.length = 4 →
      bs ≠ ContractType.Text.serialize →
      bs ≠ ContractType.PubkeyHash.serialize →
      bs ≠ ContractType.ScriptHash.serialize →
      ContractType.deserialize bs = .error (.BadType bs)) := by
  refine ⟨ContractType.deserialize_serialize, ?_⟩
  intro bs _ h1 h2 h3
  unfold ContractType.deserialize
  rw [if_neg h1, if_neg h2, if_neg h3]

/-- Witness for C6 at the `TEXT` tag and a non-tag 4-byte input. -/
theorem C6_tag_bijection_witness :
    ContractType.deserialize (ContractType.serialize .Text) = .ok .Text ∧
    ContractType.deserialize [1, 2, 3, 4] = .error (.BadType [1, 2, 3, 4]) :=
  ⟨C6_tag_bijection.1 .Text,
   C6_tag_bijection.2 [1, 2, 3, 4] (by decide) (by decide) (by decide) (by decide)⟩

/-- C10: `Type::deserialize` is total over byte slices of every length:
for any input whose length is not 4 it returns `BadType` carrying exactly
the input bytes. -/
theorem C10_deserialize_total (bs : List Byte) (h : bs.length ≠ 4) :
    ContractType.deserialize bs = .error (.BadType bs) := by
  have h1 : bs ≠ ContractType.Text.serialize := fun he => h (by rw [he]; rfl)
  have h2 : bs ≠ ContractType.PubkeyHash.serialize := fun he => h (by rw [he]; rfl)
  have h3 : bs ≠ ContractType.ScriptHash.serialize := fun he => h (by rw [he]; rfl)
  unfold ContractType.deserialize
  rw [if_neg h1, if_neg h2, if_neg h3]

/-- Witness for C10 at inputs of length 0, 3 and 5. -/
theorem C10_deserialize_total_witness :
    ContractType.deserialize [] = .error (.BadType []) ∧
    ContractType.deserialize [84, 69, 88] = .error (.BadType [84, 69, 88]) ∧
    ContractType.deserialize [84, 69, 88, 84, 84] =
      .error (.BadType [84, 69, 88, 84, 84]) :=
  ⟨C10_deserialize_total [] (by decide),
   C10_deserialize_total [84, 69, 88] (by decide),
   C10_deserialize_total [84, 69, 88, 84, 84] (by decide)⟩

/-- C7: `Nonce::from_hex` fails with `BadLength` carrying the observed byte
count whenever the hex decodes to other than 16 bytes; malformed hex fails
with the distinct `Hex` error kind; a string decoding to exactly 16 bytes
yields a `Nonce` with precisely those bytes. -/
theorem C7_nonce_from_hex :
    (∀ s bytes, fromHexStr s = .ok bytes → bytes.length ≠ 16 →
      Nonce.from_hex s = .error (.BadLength bytes.length)) ∧
    (∀ s e, fromHexStr s = .error e → Nonce.from_hex s = .error (.Hex e)) ∧
    (∀ s bytes, fromHexStr s = .ok bytes → (hl : bytes.length = 16) →
      Nonce.from_hex s = .ok ⟨bytes, hl⟩) ∧
    (∀ e n, Error.Hex e ≠ Error.BadLength n) := by
  refine ⟨?_, ?_, ?_, ?_⟩
  · intro s bytes hok hne
    simp [Nonce.from_hex, hok, NONCE_LEN, hne]
  · intro s e herr
    simp [Nonce.from_hex, herr]
  · intro s bytes hok hl
    simp [Nonce.from_hex, hok, NONCE_LEN, hl]
  · intro e n hc
    exact Error.noConfusion hc

/-- Witness for C7 at hex strings decoding to 17, 0 and 16 bytes, and a
malformed one. -/
theorem C7_nonce_from_hex_witness :
    Nonce.from_hex "0000000000000000000000000000000000" = .error (.BadLength 17) ∧
    Nonce.from_hex "" = .error (.BadLength 0) ∧
    Nonce.from_hex "zz" = .error (.Hex (.InvalidHexCharacter 'z' 0)) ∧
    Nonce.from_hex "00112233445566778899aabbccddeeff" = .ok wNonce ∧
    Error.Hex .InvalidHexLength ≠ Error.BadLength 1 :=
  ⟨C7_nonce_from_hex.1 _ (List.replicate 17 0) (by decide) (by decide),
   C7_nonce_from_hex.1 _ [] (by decide) (by decide),
   C7_nonce_from_hex.2.1 _ _ (by decide),
   C7_nonce_from_hex.2.2.1 _ _ (by decide) (by decide),
   C7_nonce_from_hex.2.2.2 _ _⟩

/-- C8: `from_ascii_str` succeeds exactly when the string's byte length is
20, in which case the contract is `Text` with the raw bytes and the
caller's nonce; any other length fails with `BadLength` carrying the
observed length. -/
theorem C8_ascii_boundary (s : String) (nonce : Nonce) :
    ((∃ c, Contract.from_ascii_str s nonce = .ok c) ↔ (strBytes s).length = 20) ∧
    ((strBytes s).length = 20 →
      Contract.from_ascii_str s nonce = .ok ⟨.Text, nonce, strBytes s⟩) ∧
    ((strBytes s).length ≠ 20 →
      Contract.from_ascii_str s nonce = .error (.BadLength (strBytes s).length)) := by
  have hpos : (strBytes s).length = 20 →
      Contract.from_ascii_str s nonce = .ok ⟨.Text, nonce, strBytes s⟩ := by
    intro hl
    simp [Contract.from_ascii_str, DATA_LEN, hl]
  have hneg : (strBytes s).length ≠ 20 →
      Contract.from_ascii_str s nonce = .error (.BadLength (strBytes s).length) := by
    intro hl
    simp [Contract.from_ascii_str, DATA_LEN, hl]
  refine ⟨⟨fun ⟨c, hc⟩ => ?_, fun hl => ⟨_, hpos hl⟩⟩, hpos, hneg⟩
  by_contra hl
  rw [hneg hl] at hc
  exact Except.noConfusion hc

/-- Witness for C8 at 20-, 19- and 21-byte ASCII strings. -/
theorem C8_ascii_boundary_witness :
    Contract.from_ascii_str "abcdefghijklmnopqrst" wNonceZero =
      .ok ⟨.Text, wNonceZero, strBytes "abcdefghijklmnopqrst"⟩ ∧
    (strBytes "abcdefghijklmnopqrs").length = 19 ∧
    Contract.from_ascii_str "abcdefghijklmnopqrs" wNonceZero =
      .error (.BadLength (strBytes "abcdefghijklmnopqrs").length) ∧
    (strBytes "abcdefghijklmnopqrstu").length = 21 ∧
    Contract.from_ascii_str "abcdefghijklmnopqrstu" wNonceZero =
      .error (.BadLength (strBytes "abcdefghijklmnopqrstu").length) :=
  ⟨(C8_ascii_boundary _ _).2.1 (by decide), by decide,
   (C8_ascii_boundary _ _).2.2 (by decide), by decide,
   (C8_ascii_boundary _ _).2.2 (by decide)⟩

/-- C9: `from_ascii_str` performs no ASCII validation: any string whose
UTF-8 encoding is exactly 20 bytes is accepted and its raw UTF-8 bytes
become the contract data. -/
theorem C9_no_ascii_validation (s : String) (nonce : Nonce)
    (h : (strBytes s).length = 20) :
    Contract.from_ascii_str s nonce = .ok ⟨.Text, nonce, strBytes s⟩ := by
  simp [Contract.from_ascii_str, DATA_LEN, h]

/-- Witness for C9 at a non-ASCII string of 15 characters but 20 UTF-8
bytes. -/
theorem C9_no_ascii_validation_witness :
    Contract.from_ascii_str "αβγδεabcdefghij" wNonce =
      .ok ⟨.Text, wNonce, strBytes "αβγδεabcdefghij"⟩ ∧
    "αβγδεabcdefghij".length = 15 :=
  ⟨C9_no_ascii_validation _ wNonce (by decide), by decide⟩

/-- C5: `GenAddress` mode requires a redeem script and rejects a supplied
private key; `GenPrivkey` mode requires a private key and rejects a
supplied redeem script; a supplied private key whose network differs from
the tool's network is rejected.  Each violation is a distinct error. -/
theorem C5_mode_validation :
    resolveRedeemScript .GenAddress none = .error .redeemMissing ∧
    (∀ dec net p, resolvePrivkey dec .GenAddress net (some p) = .error .privkeyNotAllowed) ∧
    (∀ dec net, resolvePrivkey dec .GenPrivkey net none = .error .privkeyMissing) ∧
    (∀ x, resolveRedeemScript .GenPrivkey (some x) = .error .redeemNotAllowed) ∧
    (∀ dec x key net, dec x = .ok key → key.network ≠ net →
      resolvePrivkey dec .GenPrivkey net (some x) = .error .privkeyWrongNetwork) := by
  refine ⟨rfl, fun dec net p => rfl, fun dec net => rfl, fun x => rfl, ?_⟩
  intro dec x key net hok hne
  simp [resolvePrivkey, hok, hne]

/-- Witness for C5 at a concrete decoder returning a testnet key while the
tool is on mainnet. -/
theorem C5_mode_validation_witness :
    resolveRedeemScript .GenAddress none = .error .redeemMissing ∧
    resolvePrivkey wDecodePrivkey .GenAddress .Bitcoin (some "key") = .error .privkeyNotAllowed ∧
    resolvePrivkey wDecodePrivkey .GenPrivkey .Bitcoin none = .error .privkeyMissing ∧
    resolveRedeemScript .GenPrivkey (some "51") = .error .redeemNotAllowed ∧
    resolvePrivkey wDecodePrivkey .GenPrivkey .Bitcoin (some "key") = .error .privkeyWrongNetwork :=
  ⟨C5_mode_validation.1,
   C5_mode_validation.2.1 wDecodePrivkey .Bitcoin "key",
   C5_mode_validation.2.2.1 wDecodePrivkey .Bitcoin,
   C5_mode_validation.2.2.2.1 "51",
   C5_mode_validation.2.2.2.2 wDecodePrivkey "key" ⟨true, .Testnet, []⟩ .Bitcoin rfl (by decide)⟩

/-- C2 as stated is false: supplying a nonce alongside a full-hex contract
is not ignored — the full-hex match arm requires the nonce to be absent,
so the combination falls to the catch-all arm and fails with the usage
error, while the same hex alone resolves successfully. -/
theorem C2_counterexample :
    resolveContract wDecodeAddrFail wNonceZero .GenAddress .Bitcoin
      (some wContractHex) (some wNonceHex) none none = .error .usage ∧
    resolveContract wDecodeAddrFail wNonceZero .GenAddress .Bitcoin
      (some wContractHex) none none none = .ok wHexContract :=
  ⟨rfl, by decide⟩

/-- C2 amended: supplying a nonce alongside a full-hex contract terminates
resolution with the catch-all usage error for every mode and network; when
no nonce is supplied, the full-hex path is decided by `Contract.from_hex`
alone, never consulting the address decoder or any nonce. -/
theorem C2_amended :
    (∀ dec rng mode net hex ns,
      resolveContract dec rng mode net (some hex) (some ns) none none = .error .usage) ∧
    (∀ dec rng mode net hex,
      resolveContract dec rng mode net (some hex) none none none =
        match Contract.from_hex hex with
        | .ok c => .ok c
        | .error e => .error (.contractHexParse e)) := by
  exact ⟨fun dec rng mode net hex ns => rfl, fun dec rng mode net hex => rfl⟩
